import Mathlib

/-!
Shallow embedding of the shared-memory IPC responder of ai_optimizer.py
(function run_ipc_loop and its helpers).  Machine bytes are modelled as
natural numbers, IEEE-754 doubles as rationals, the mmap region writes as an
explicit trace of write events, and the external collaborators (the HTTP
model store, torch.jit loading/execution of TorchScript modules, the SQL
engine) as functions supplied by an environment record.  Exceptions raised
by external calls are modelled by Option/Except results.
-/

namespace AIOptimizer

/-- Bytes read from or written to the mmap region, modelled as natural
numbers in the range 0..255. -/
abbrev Byte := Nat

/-- ASCII bytes of a string literal.  All literals appearing in the embedded
code are ASCII, where Python code points and UTF-8 bytes coincide. -/
def strBytes (s : String) : List Byte := s.data.map Char.toNat

/-- Little-endian u32 read at a byte offset, as done by struct.unpack_from
with format <I. -/
def readU32le (l : List Byte) (off : Nat) : Nat :=
  l.getD off 0 + 256 * l.getD (off+1) 0 + 65536 * l.getD (off+2) 0 +
    16777216 * l.getD (off+3) 0

/-! ### Tokenizer (TOKEN_RE and tokenize_filter_order) -/

/-- Word bytes of the regex class \w under re.ASCII: [A-Za-z0-9_]. -/
def isWordByte (c : Byte) : Bool :=
  (65 ≤ c && c ≤ 90) || (97 ≤ c && c ≤ 122) || (48 ≤ c && c ≤ 57) || c == 95

/-- Scan the body of a quoted-string token after its opening quote (byte 34),
following the regex branch matching a double-quoted string whose body is a
sequence of non-quote non-backslash bytes or backslash-escaped pairs, closed
by a final quote.  Returns the remaining token bytes (including the closing
quote) and the unconsumed rest; none when no closing quote is reachable. -/
def scanQuoted : List Byte → Option (List Byte × List Byte)
  | [] => none
  | 34 :: rest => some ([34], rest)
  | 92 :: c :: rest =>
      match scanQuoted rest with
      | some (tk, r) => some (92 :: c :: tk, r)
      | none => none
  | [92] => none
  | c :: rest =>
      match scanQuoted rest with
      | some (tk, r) => some (c :: tk, r)
      | none => none

/-- One step per consumed byte of re.findall over TOKEN_RE, which tries the
alternatives left parenthesis, right parenthesis, question mark, the two-byte
comparison operators, the one-byte comparison operators, word runs, pipe and
quoted strings in this order at every position, advancing one byte when no
alternative matches.  The fuel argument is initialised with the input length;
every step consumes at least one byte, so the fuel never runs out. -/
def findallAux : Nat → List Byte → List (List Byte)
  | 0, _ => []
  | _, [] => []
  | fuel+1, c :: rest =>
    if c == 40 || c == 41 || c == 63 then [c] :: findallAux fuel rest
    else if c == 62 then
      match rest with
      | 61 :: r => [62, 61] :: findallAux fuel r
      | _ => [62] :: findallAux fuel rest
    else if c == 60 then
      match rest with
      | 61 :: r => [60, 61] :: findallAux fuel r
      | 62 :: r => [60, 62] :: findallAux fuel r
      | _ => [60] :: findallAux fuel rest
    else if c == 33 then
      match rest with
      | 61 :: r => [33, 61] :: findallAux fuel r
      | _ => findallAux fuel rest
    else if c == 61 then [61] :: findallAux fuel rest
    else if isWordByte c then
      ((c :: rest).takeWhile isWordByte) ::
        findallAux fuel ((c :: rest).dropWhile isWordByte)
    else if c == 124 then [124] :: findallAux fuel rest
    else if c == 34 then
      match scanQuoted rest with
      | some (tk, r) => (34 :: tk) :: findallAux fuel r
      | none => findallAux fuel rest
    else findallAux fuel rest

/-- All TOKEN_RE matches of a byte string, in order. -/
def tokenRe_findall (l : List Byte) : List (List Byte) := findallAux l.length l

/-- Helper for splitting on the pipe byte (124), with the semantics of the
Python str.split method on a single-character separator. -/
def splitPipeAux (acc : List Byte) : List Byte → List (List Byte)
  | [] => [acc.reverse]
  | 124 :: rest => acc.reverse :: splitPipeAux [] rest
  | c :: rest => splitPipeAux (c :: acc) rest

/-- Split a byte string on the pipe byte. -/
def splitPipe (l : List Byte) : List (List Byte) := splitPipeAux [] l

/-- Tokenize the filter expression with TOKEN_RE and append the pipe-split
order keys, skipping either part when it is empty. -/
def tokenize_filter_order (filter_s order_s : List Byte) : List (List Byte) :=
  (if filter_s.isEmpty then [] else tokenRe_findall filter_s) ++
  (if order_s.isEmpty then [] else splitPipe order_s)

/-! ### Token features -/

/-- Operator and keyword flags recognized by the model, in source order. -/
def OP_TOKENS : List (List Byte) :=
  [strBytes "(", strBytes ")", strBytes "and", strBytes "or", strBytes "not",
   strBytes ">", strBytes "<", strBytes ">=", strBytes "<=", strBytes "=",
   strBytes "!=", strBytes "<>",
   strBytes "equal?", strBytes "equal??", strBytes "?",
   strBytes "true", strBytes "false"]

/-- Per-token feature width: 16 hash dims, 2 numeric dims, 1 depth dim and
one flag per operator token. -/
def FEATURE_DIM : Nat := 16 + 2 + 1 + OP_TOKENS.length

/-- Hashed lexical fingerprint: bucket j accumulates the scaled byte values
of the positions congruent to j, then the vector is divided by
max 1 (length / dim). -/
def simple_hash_16 (token : List Byte) (dim : Nat := 16) : List Rat :=
  let contrib := token.enum.map (fun p => (p.1 % dim, ((p.2 % 256 : Nat) : Rat) / 128))
  let v := (List.range dim).map
    (fun j => ((contrib.filter (fun q => q.1 == j)).map Prod.snd).sum)
  let norm : Rat := max 1 ((token.length : Rat) / (dim : Rat))
  v.map (fun x => x / norm)

/-- Digit byte of the regex class \d (ASCII). -/
def isDigitByte (c : Byte) : Bool := 48 ≤ c && c ≤ 57

/-- Anchored match of the integer-literal regex: an optional minus sign
followed by one or more digits. -/
def isIntToken (t : List Byte) : Bool :=
  match t with
  | 45 :: rest => !rest.isEmpty && rest.all isDigitByte
  | _ => !t.isEmpty && t.all isDigitByte

/-- Decimal value of a digit run. -/
def digitsToNat (l : List Byte) : Nat := l.foldl (fun acc c => 10 * acc + (c - 48)) 0

/-- Integer value of a token matching the integer-literal regex. -/
def intValue (t : List Byte) : Int :=
  match t with
  | 45 :: rest => - (digitsToNat rest : Int)
  | _ => (digitsToNat t : Int)

/-- ASCII lowercase of one byte. -/
def lowerByte (c : Byte) : Byte := if 65 ≤ c && c ≤ 90 then c + 32 else c

/-- ASCII lowercase of a byte string, modelling str.lower on the ASCII
tokens produced by the tokenizer. -/
def lowerBytes (t : List Byte) : List Byte := t.map lowerByte

/-- Feature rows of a token list, threading the parenthesis depth, which is
incremented after an opening parenthesis token and decremented after a
closing one while positive.  The flag row sets 1 exactly at the index of the
lowercased token in OP_TOKENS (the entries of OP_TOKENS are distinct, so the
pointwise comparison below is the same one-hot row).  The log1p function is
supplied by the environment since it is transcendental. -/
def tokenFeaturesAux (log1p : Rat → Rat) : Nat → List (List Byte) → List (List Rat)
  | _, [] => []
  | depth, t :: rest =>
    let h := simple_hash_16 t
    let val : Rat := if isIntToken t then ((intValue t : Int) : Rat) else 0
    let num : List Rat := [val, if val ≠ 0 then log1p (abs val) else 0]
    let depth_feat : List Rat := [(depth : Rat) / 16]
    let lt := lowerBytes t
    let flags : List Rat := OP_TOKENS.map (fun opk => if opk == lt then 1 else 0)
    let feat := h ++ num ++ depth_feat ++ flags
    let depth2 := if t == [40] then depth + 1
      else if t == [41] && depth > 0 then depth - 1 else depth
    feat :: tokenFeaturesAux log1p depth2 rest

/-- FEATURE_DIM features per token; a single all-zero row when the token
list is empty. -/
def token_features (log1p : Rat → Rat) (tokens : List (List Byte)) : List (List Rat) :=
  let rows := tokenFeaturesAux log1p 0 tokens
  if rows.isEmpty then [List.replicate FEATURE_DIM 0] else rows

/-! ### Model field decoding (_decode_model_field) -/

/-- Shape of the JSON field value carried by the model column of a fetched
row: Python None, a bytes object, a str (held here as its UTF-8 bytes, which
is also what encoding it back produces), or any other value. -/
inductive PyVal where
  | pyNone
  | pyBytes (b : List Byte)
  | pyStr (s : List Byte)
  | pyOther
deriving DecidableEq

/-- Value of one base64 alphabet byte. -/
def b64charVal (c : Byte) : Option Nat :=
  if 65 ≤ c && c ≤ 90 then some (c - 65)
  else if 97 ≤ c && c ≤ 122 then some (c - 71)
  else if 48 ≤ c && c ≤ 57 then some (c + 4)
  else if c == 43 then some 62
  else if c == 47 then some 63
  else none

/-- Reassemble bytes from 6-bit base64 digits, 4 digits to 3 bytes, with the
usual truncated final quantum. -/
def b64quanta : List Nat → List Byte
  | a :: b :: c :: d :: rest =>
      (a * 4 + b / 16) :: ((b % 16) * 16 + c / 4) :: ((c % 4) * 64 + d) ::
        b64quanta rest
  | [a, b, c] => [a * 4 + b / 16, (b % 16) * 16 + c / 4]
  | [a, b] => [a * 4 + b / 16]
  | _ => []

/-- Scan of the CPython a2b_base64 primitive in non-strict mode, the loop of
the binascii C implementation: quad holds the 6-bit digits of the current
quantum (at most 3), pads the padding bytes seen since the last data byte.
A padding byte with at least 2 digits pending that completes the quantum
(pending + pads reaching 4) emits the truncated quantum and ignores the rest
of the input; otherwise it is recorded and scanning continues.  Bytes
outside the alphabet are skipped.  A data byte resets the pad count and
either extends the quantum or, as its fourth digit, emits three bytes.  At
the end of the input, pending digits (1, 2 or 3 of them) raise, modelled by
none. -/
def a2b_aux : List Byte → List Nat → Nat → Option (List Byte)
  | [], quad, _ =>
      match quad with
      | [] => some []
      | _ => none
  | c :: rest, quad, pads =>
    if c == 61 then
      if 2 ≤ quad.length ∧ 4 ≤ quad.length + (pads + 1) then some (b64quanta quad)
      else a2b_aux rest quad (pads + 1)
    else
      match b64charVal c with
      | none => a2b_aux rest quad pads
      | some d =>
        if quad.length == 3 then
          match a2b_aux rest [] 0 with
          | none => none
          | some bs => some (b64quanta (quad ++ [d]) ++ bs)
        else a2b_aux rest (quad ++ [d]) 0

/-- Base64 decoding as performed by binascii a2b_base64 in the non-strict
mode that base64.b64decode uses (with and without its validate check). -/
def a2b_base64 (s : List Byte) : Option (List Byte) := a2b_aux s [] 0

/-- ASCII check of the str argument: base64.b64decode first encodes a str
input as ASCII and raises ValueError when any character is outside ASCII;
in the UTF-8 bytes held here that is exactly a byte at 128 or above. -/
def b64AsciiOk (s : List Byte) : Bool := s.all (fun c => decide (c < 128))

/-- Character check done by base64.b64decode when validate is requested: the
input must be alphabet bytes followed by at most two padding bytes. -/
def b64validateOk (s : List Byte) : Bool :=
  let data := s.takeWhile (fun c => (b64charVal c).isSome)
  let rest := s.drop data.length
  decide (rest.length ≤ 2) && rest.all (fun c => c == 61)

/-- Decode the model column of a fetched row into raw bytes: None gives
nothing, bytes pass through, a str is tried as strict base64 (the ASCII and
alphabet checks, then the non-strict scan), then as lenient base64 (the
ASCII check and the scan alone), then kept as its UTF-8 bytes; other values
give nothing. -/
def _decode_model_field : PyVal → Option (List Byte)
  | .pyNone => none
  | .pyBytes b => some b
  | .pyStr s =>
      match (if b64AsciiOk s && b64validateOk s then a2b_base64 s else none) with
      | some b => some b
      | none =>
        match (if b64AsciiOk s then a2b_base64 s else none) with
        | some b => some b
        | none => some s
  | .pyOther => none

/-! ### External collaborators -/

/-- Deserialized TorchScript module handle.  The tensor computation of a
loaded module is external compiled code; it is modelled as opaque functions
over rational-valued vectors, at the three call shapes used by the program
(unary vector to vector, the four-argument base-encoder shape, and unary
vector to scalar), each returning none when the call raises. -/
structure ScriptModule where
  call1 : List Rat → Option (List Rat)
  call4 : List (List Rat) → List Rat → List Rat → Rat → Option (List Rat)
  call1s : List Rat → Option Rat

/-- Environment of external collaborators of the loop.  first_json_row is
the model column of the first JSON row returned for a SQL text, or none when
there is no row, the row has no model key, or the HTTP request failed (the
Python helper catches all its own exceptions and returns None).  jit_load
models torch.jit.load on decoded bytes, none when it raises.  exec_sql
models the forwarded query call, where an error value carries the message
bytes of the raised exception.  log1p and expm1 are the transcendental
scalar functions used by the feature encoder and the prediction head. -/
structure Env where
  first_json_row : List Byte → Option PyVal
  jit_load : List Byte → Option ScriptModule
  exec_sql : List Byte → Except (List Byte) (List Byte)
  log1p : Rat → Rat
  expm1 : Rat → Rat

/-- Double one quote byte (39), the SQL escaping applied to interpolated
identifiers. -/
def sqlEscape (b : List Byte) : List Byte :=
  b.foldr (fun c acc => if c == 39 then 39 :: 39 :: acc else c :: acc) []

/-- SQL text selecting the model column for a base-model id, as built both
by the FetchModel opcode handler and by _load_script_by_id (byte 39 is the
quote). -/
def sqlSelectBaseModel (model_id : List Byte) : List Byte :=
  strBytes "SELECT model FROM base_models WHERE id=" ++ [39] ++
    sqlEscape model_id ++ [39] ++ strBytes " LIMIT 1"

/-- SQL text selecting the histogram model of one entity, as built by
_load_hist_for_table (byte 96 is the backquote, byte 39 the quote). -/
def sqlSelectHistogram (schema table : List Byte) : List Byte :=
  strBytes "SELECT model FROM table_histogram WHERE " ++ [96] ++
    strBytes "schema" ++ [96, 61, 39] ++ sqlEscape schema ++ [39] ++
    strBytes " AND " ++ [96] ++ strBytes "table" ++ [96, 61, 39] ++
    sqlEscape table ++ [39] ++ strBytes " LIMIT 1"

/-- Load a TorchScript module by global id: fetch the row, decode the field,
reject a missing row, an undecodable field or empty bytes, then hand the
bytes to torch.jit.load; none models any raised exception on the way. -/
def _load_script_by_id (env : Env) (model_id : List Byte) : Option ScriptModule :=
  match env.first_json_row (sqlSelectBaseModel model_id) with
  | none => none
  | some field =>
    match _decode_model_field field with
    | none => none
    | some b => if b.isEmpty then none else env.jit_load b

/-- Load the per-entity histogram module, with the same contract as the
global loader but keyed by schema and table. -/
def _load_hist_for_table (env : Env) (schema table : List Byte) : Option ScriptModule :=
  match env.first_json_row (sqlSelectHistogram schema table) with
  | none => none
  | some field =>
    match _decode_model_field field with
    | none => none
    | some b => if b.isEmpty then none else env.jit_load b

/-- The three global model handles of the loop; each is none when its load
failed. -/
structure Models where
  base_encoder : Option ScriptModule
  ordered_layer : Option ScriptModule
  output_head : Option ScriptModule
deriving Inhabited

/-- Startup model loading of run_ipc_loop: the three loads run sequentially
inside one try block, so a failure keeps the models already assigned and
leaves the remaining ones at None. -/
def startupModels (env : Env) : Models :=
  match _load_script_by_id env (strBytes "base_encoder_v1") with
  | none => ⟨none, none, none⟩
  | some be =>
    match _load_script_by_id env (strBytes "ordered_layer_v1") with
    | none => ⟨some be, none, none⟩
    | some ol =>
      match _load_script_by_id env (strBytes "output_head_v1") with
      | none => ⟨some be, some ol, none⟩
      | some oh => ⟨some be, some ol, some oh⟩

/-! ### Prediction pipeline (_predict_one) -/

/-- Maximum token sequence length fed to the encoder. -/
def MAX_TOKENS : Nat := 512

/-- Pad the feature rows with all-zero rows up to MAX_TOKENS, or truncate
them down to MAX_TOKENS. -/
def padTruncate (feats : List (List Rat)) : List (List Rat) :=
  if feats.length < MAX_TOKENS then
    feats ++ List.replicate (MAX_TOKENS - feats.length) (List.replicate FEATURE_DIM 0)
  else feats.take MAX_TOKENS

/-- Single prediction: tokenize the filter and order, encode and pad the
token features, encode schema and table as single-token sequences, run the
base encoder, the per-entity histogram module, the ordered-adjustment module
when the order spec is nonempty, and the output head, then invert the log
transform with expm1 and clamp at zero.  The ordered module is passed as the
possibly-unassigned variable of the caller; using it while unassigned raises,
which the none branch models.  A none result models any exception raised by
a module call. -/
def _predict_one (env : Env) (base_encoder : ScriptModule)
    (ordered_layer : Option ScriptModule) (output_head hist_layer : ScriptModule)
    (schema table filter_s order_s : List Byte) (input_count : Rat) : Option Rat :=
  let tokens := tokenize_filter_order filter_s order_s
  let feats := padTruncate (token_features env.log1p tokens)
  let sch := (token_features env.log1p [schema]).headD (List.replicate FEATURE_DIM 0)
  let tab := (token_features env.log1p [table]).headD (List.replicate FEATURE_DIM 0)
  match base_encoder.call4 feats sch tab input_count with
  | none => none
  | some base_vec =>
    match hist_layer.call1 base_vec with
    | none => none
    | some out0 =>
      let stage :=
        if order_s.isEmpty then some out0
        else match ordered_layer with
          | some m => m.call1 out0
          | none => none
      match stage with
      | none => none
      | some out =>
        match output_head.call1s out with
        | none => none
        | some logp => some (max 0 (env.expm1 logp))

/-! ### Control block writes and the poll loop -/

/-- One write performed by the responder on the shared region, in program
order: a struct.pack_into of a u32, a u64 or a f64 at a byte offset, a slice
assignment of raw bytes at a byte offset, or one status publication (the
status channel writes its message bytes, length, code and sequence bump as
one internally ordered unit in write_status). -/
inductive Event where
  | packU32 (off : Nat) (val : Nat)
  | packU64 (off : Nat) (val : Nat)
  | packF64 (off : Nat) (val : Rat)
  | writeBytes (off : Nat) (data : List Byte)
  | status (code : Nat) (msg : List Byte)
deriving DecidableEq

/-- Publish one status: the message is truncated to the 64 KiB capacity of
the status region, then length, code and the bumped statusSeq are written.
The body of the Python helper swallows its own exceptions; with the region
writes total in this model, the status is always published. -/
def write_status (code : Nat) (msg : List Byte) : Event :=
  .status code (if 65536 < msg.length then msg.take 65536 else msg)

/-- Request header and payload as read from the control block at the top of
one processing pass: reqSeq (u64 at offset 0), inputCount (u64 at offset
16), the four payload length fields (u32 at offsets 24, 28, 32, 36) and the
request payload region starting at byte offset 64. -/
structure Mailbox where
  reqSeq : Nat
  inputCount : Nat
  schemaLen : Nat
  tableLen : Nat
  filterLen : Nat
  orderLen : Nat
  payload : List Byte
deriving DecidableEq

/-- Per-entity histogram cache of the loop, a mapping from (schema, table)
keys to loaded modules; modelled as an association list to which entries are
only ever prepended on a lookup miss. -/
abbrev Cache := List ((List Byte × List Byte) × ScriptModule)

/-- Mode selection of the dispatcher: generic opcode mode exactly when all
four length fields are zero. -/
def isGenericMode (mb : Mailbox) : Bool :=
  mb.schemaLen == 0 && mb.tableLen == 0 && mb.filterLen == 0 && mb.orderLen == 0

/-- Opcode byte of a generic request: the payload byte at offset 64. -/
def genericOpcode (mb : Mailbox) : Nat := mb.payload.getD 0 0

/-- Body of a generic request: the plen bytes following the one-byte opcode
and the little-endian u32 length (a slice, so it clamps at the region end
like the Python slice does). -/
def genericBody (mb : Mailbox) : List Byte :=
  (mb.payload.drop 5).take (readU32le mb.payload 1)

/-- Bytes answered by the FetchModel handler: empty unless the row exists,
its model field decodes, and the decoded bytes are nonempty. -/
def fetchModelData (env : Env) (model_id : List Byte) : List Byte :=
  match env.first_json_row (sqlSelectBaseModel model_id) with
  | none => []
  | some field =>
    match _decode_model_field field with
    | none => []
    | some b => if b.isEmpty then [] else b

/-- Legacy payload decoding: four consecutive slices of the payload region,
using the four length fields in order, with a running offset. -/
def decodeLegacyFields (payload : List Byte) (schemaLen tableLen filterLen orderLen : Nat) :
    List Byte × List Byte × List Byte × List Byte :=
  let off := 0
  let schema := (payload.drop off).take schemaLen
  let off := off + schemaLen
  let table := (payload.drop off).take tableLen
  let off := off + tableLen
  let filter_s := (payload.drop off).take filterLen
  let off := off + filterLen
  let order_s := (payload.drop off).take orderLen
  (schema, table, filter_s, order_s)

/-- Decoded fields of a legacy request. -/
def legacyFields (mb : Mailbox) : List Byte × List Byte × List Byte × List Byte :=
  decodeLegacyFields mb.payload mb.schemaLen mb.tableLen mb.filterLen mb.orderLen

/-- Histogram-cache key of a legacy request. -/
def keyOf (mb : Mailbox) : List Byte × List Byte :=
  ((legacyFields mb).1, (legacyFields mb).2.1)

/-- Histogram lookup of the legacy path: consult the cache; on a miss try
the loader, and only on success store the module under its key and announce
an INFO status; a failed load leaves the cache untouched and yields no
module.  Returns the module to use, the updated cache and the statuses
emitted. -/
def histLookup (env : Env) (cache : Cache) (schema table : List Byte) :
    Option ScriptModule × Cache × List Event :=
  match cache.lookup (schema, table) with
  | some h => (some h, cache, [])
  | none =>
    match _load_hist_for_table env schema table with
    | some h => (some h, ((schema, table), h) :: cache,
        [write_status 2 (strBytes "loaded histogram " ++ schema ++ [46] ++ table)])
    | none => (none, cache, [])

/-- Response value of the legacy path: when the base encoder, the output
head or the histogram module is unavailable, or the prediction call raises,
the input count passes through unchanged; otherwise the prediction is
returned.  inputCount is a u64 field; its conversion to the f64 response is
modelled exactly in the rationals (IEEE rounding of huge counts is outside
the model). -/
def legacyOut (env : Env) (models : Models) (hist : Option ScriptModule)
    (schema table filter_s order_s : List Byte) (inputCount : Nat) : Rat :=
  match models.base_encoder, models.output_head, hist with
  | some be, some oh, some h =>
    (match _predict_one env be models.ordered_layer oh h schema table filter_s
        order_s (inputCount : Rat) with
     | some v => v
     | none => (inputCount : Rat))
  | _, _, _ => (inputCount : Rat)

/-- Legacy estimate handler: decode the four fields, look up or load the
histogram, compute the response value, write it as a f64 at the outputCount
offset 40 and then publish respSeq (u64 at offset 8). -/
def legacyHandler (env : Env) (models : Models) (cache : Cache) (mb : Mailbox) :
    List Event × Cache :=
  let f := legacyFields mb
  let r := histLookup env cache f.1 f.2.1
  (r.2.2 ++
    [.packF64 40 (legacyOut env models r.1 f.1 f.2.1 f.2.2.1 f.2.2.2 mb.inputCount),
     .packU64 8 mb.reqSeq],
   r.2.1)

/-- Generic opcode handler.  Opcode 2 (FetchModel) answers the stored bytes
length-prefixed at offset 64, empty on a miss; nothing in its fetch block
raises in this model (the row helper returns None on failure), so the ERROR
branch guarding it is not taken.  Opcode 3 (ExecuteQuery) forwards the SQL
text; an engine failure publishes an ERROR status and answers the message
text itself.  Any other opcode answers a zero-length response with no
status.  Every branch publishes respSeq last. -/
def genericHandler (env : Env) (cache : Cache) (mb : Mailbox) : List Event × Cache :=
  let payload := genericBody mb
  if genericOpcode mb == 2 then
    let data := fetchModelData env payload
    (.packU32 64 data.length ::
      ((if data.isEmpty then [] else [.writeBytes 68 data]) ++ [.packU64 8 mb.reqSeq]),
     cache)
  else if genericOpcode mb == 3 then
    let r : List Event × List Byte :=
      match env.exec_sql payload with
      | .ok txt => ([], txt)
      | .error e =>
        let msg := strBytes "sql error: " ++ e
        ([write_status 3 msg], msg)
    (r.1 ++ (.packU32 64 r.2.length ::
      ((if r.2.isEmpty then [] else [.writeBytes 68 r.2]) ++ [.packU64 8 mb.reqSeq])),
     cache)
  else
    ([.packU32 64 0, .packU64 8 mb.reqSeq], cache)

/-- One processing pass over an observed request: generic opcode mode when
all four length fields are zero, legacy estimate mode otherwise. -/
def processRequest (env : Env) (models : Models) (cache : Cache) (mb : Mailbox) :
    List Event × Cache :=
  if isGenericMode mb then genericHandler env cache mb
  else legacyHandler env models cache mb

/-- Loop state: the last observed request sequence (a Python int, 0 before
the READY announcement, then the sentinel -1, then the processed reqSeq
values) and the histogram cache. -/
structure LoopState where
  last_seq : Int
  hist_cache : Cache

/-- Statuses of the one-time READY announcement: one INFO summarizing the
core-model load outcome, then the READY status. -/
def readyEvents (models : Models) : List Event :=
  [write_status 2 (if models.base_encoder.isSome && models.output_head.isSome
      then strBytes "python: core models loaded"
      else strBytes "python: core models missing; passthrough mode"),
   write_status 1 (strBytes "ready")]

/-- READY announcement step at the top of each iteration: emitted only while
last_seq is still 0, which is then replaced by the sentinel -1. -/
def readyStep (models : Models) (st : LoopState) : LoopState × List Event :=
  if st.last_seq = 0 then ({ st with last_seq := -1 }, readyEvents models)
  else (st, [])

/-- One iteration of the poll loop: the READY step, then the reqSeq guard;
a changed nonzero reqSeq is processed and recorded, otherwise the iteration
only sleeps. -/
def loopIter (env : Env) (models : Models) (st : LoopState) (mb : Mailbox) :
    LoopState × List Event :=
  if mb.reqSeq ≠ 0 ∧ (mb.reqSeq : Int) ≠ ((readyStep models st).1).last_seq then
    (⟨(mb.reqSeq : Int), (processRequest env models ((readyStep models st).1).hist_cache mb).2⟩,
     (readyStep models st).2 ++ (processRequest env models ((readyStep models st).1).hist_cache mb).1)
  else ((readyStep models st).1, (readyStep models st).2)

/-- Run of the loop over a finite sequence of mailbox observations, one per
iteration, concatenating the traces. -/
def runFrom (env : Env) (models : Models) : LoopState → List Mailbox → LoopState × List Event
  | st, [] => (st, [])
  | st, mb :: mbs =>
    let r := loopIter env models st mb
    let r2 := runFrom env models r.1 mbs
    (r2.1, r.2 ++ r2.2)

/-- Initial loop state: last_seq 0, empty histogram cache. -/
def initState : LoopState := ⟨0, []⟩

/-- Whole responder run: load the global models, publish the initial INFO
status, then iterate the poll loop over the observed mailboxes. -/
def run_ipc_loop (env : Env) (mbs : List Mailbox) : LoopState × List Event :=
  let models := startupModels env
  let r := runFrom env models initState mbs
  (r.1, write_status 2 (strBytes "python: up and listening") :: r.2)

/-! ### Trace observations -/

/-- A write of the respSeq field (u64 at offset 8). -/
def isRespSeqWrite : Event → Bool
  | .packU64 8 _ => true
  | _ => false

/-- A write of response data: the generic length prefix at offset 64, the
generic response bytes at offset 68, or the legacy outputCount at offset
40. -/
def isResponseWrite : Event → Bool
  | .packU32 64 _ => true
  | .writeBytes 68 _ => true
  | .packF64 40 _ => true
  | _ => false

/-- A status publication with code ERROR. -/
def isErrorStatus : Event → Bool
  | .status 3 _ => true
  | _ => false

/-- A write of the legacy outputCount field (f64 at offset 40). -/
def isOutputCountWrite : Event → Bool
  | .packF64 40 _ => true
  | _ => false

/-- A write of the generic response length prefix (u32 at offset 64). -/
def isGenericLenWrite : Event → Bool
  | .packU32 64 _ => true
  | _ => false

/-- A status publication with code READY. -/
def isReadyStatus : Event → Bool
  | .status 1 _ => true
  | _ => false

/-- Number of READY statuses in a trace. -/
def countReady (evs : List Event) : Nat := (evs.filter isReadyStatus).length

/-- A write of raw response bytes into the payload region. -/
def isBytesWrite : Event → Bool
  | .writeBytes _ _ => true
  | _ => false

/-! ### Capacity-aware pass semantics

The trace semantics above models the region writes as always succeeding.
The mapped region is in fact finite: a slice assignment whose range extends
past the mapped length raises IndexError without writing, because the
clamped slice is shorter than the assigned bytes.  The definitions below
refine the processing pass with this capacity; the agreement lemma further
down shows the two semantics coincide on every pass whose response writes
fit the region. -/

/-- Modelled from the spec: the length of the memory-mapped control block.
The requester-side code that creates and sizes the backing file is not part
of this repository; the spec fixes the request payload region at 512 KiB
starting at offset 64, followed by the status message bytes, which the
responder truncates to 64 KiB. -/
def MM_LEN : Nat := 64 + 512 * 1024 + 64 * 1024

/-- Whether the slice assignment of data at a byte offset fits the mapped
region; when it does not, the statement raises IndexError and writes
nothing. -/
def writeFits (off : Nat) (data : List Byte) : Bool := decide (off + data.length ≤ MM_LEN)

/-- Outcome of one capacity-aware processing pass: the pass completes with
its trace and updated cache, or an uncaught exception escapes the loop with
the listed events already performed. -/
inductive PassResult where
  | ok (evs : List Event) (cache : Cache)
  | crash (evs : List Event)

/-- Capacity-aware generic opcode handler.  In the FetchModel block the
length prefix is packed and then an oversized slice assignment raises inside
the try, so the except branch publishes an ERROR status (carrying the
IndexError text of the interpreter) and a zero-length prefix, and respSeq
still follows.  In the ExecuteQuery block only the engine call is guarded:
the length prefix is packed and then an oversized slice assignment raises
outside any try, the IndexError escapes and the loop dies with respSeq
unwritten. -/
def genericHandlerChecked (env : Env) (cache : Cache) (mb : Mailbox) : PassResult :=
  let payload := genericBody mb
  if genericOpcode mb == 2 then
    let data := fetchModelData env payload
    if data.isEmpty then
      .ok [Event.packU32 64 data.length, Event.packU64 8 mb.reqSeq] cache
    else if writeFits 68 data then
      .ok [Event.packU32 64 data.length, Event.writeBytes 68 data,
        Event.packU64 8 mb.reqSeq] cache
    else
      .ok [Event.packU32 64 data.length,
        write_status 3 (strBytes "fetch model error: mmap slice assignment is wrong size"),
        Event.packU32 64 0, Event.packU64 8 mb.reqSeq] cache
  else if genericOpcode mb == 3 then
    let r : List Event × List Byte :=
      match env.exec_sql payload with
      | .ok txt => ([], txt)
      | .error e =>
        let msg := strBytes "sql error: " ++ e
        ([write_status 3 msg], msg)
    if r.2.isEmpty then
      .ok (r.1 ++ [Event.packU32 64 r.2.length, Event.packU64 8 mb.reqSeq]) cache
    else if writeFits 68 r.2 then
      .ok (r.1 ++ [Event.packU32 64 r.2.length, Event.writeBytes 68 r.2,
        Event.packU64 8 mb.reqSeq]) cache
    else
      .crash (r.1 ++ [Event.packU32 64 r.2.length])
  else
    .ok [Event.packU32 64 0, Event.packU64 8 mb.reqSeq] cache

/-- Capacity-aware processing pass.  The legacy path only writes the two
fixed-width fields at offsets 40 and 8 and a truncated status, all inside
the region, so it never raises. -/
def processRequestChecked (env : Env) (models : Models) (cache : Cache) (mb : Mailbox) :
    PassResult :=
  if isGenericMode mb then genericHandlerChecked env cache mb
  else .ok (legacyHandler env models cache mb).1 (legacyHandler env models cache mb).2

/-! ### Concrete fixtures used by witnesses and counterexamples -/

/-- Environment in which every external collaborator fails or is empty. -/
def envW : Env := ⟨fun _ => none, fun _ => none, fun _ => .error [], fun _ => 0, fun _ => 0⟩

/-- Module handle whose calls all raise. -/
def modW : ScriptModule := ⟨fun _ => none, fun _ _ _ _ => none, fun _ => none⟩

/-- Environment whose model store answers the bytes 1, 2, 3 for every row
query. -/
def envB : Env := { envW with first_json_row := fun _ => some (.pyBytes [1, 2, 3]) }

/-- Environment whose model store answers one byte and whose jit loader
succeeds with modW. -/
def envLoad : Env :=
  { envW with first_json_row := fun _ => some (.pyBytes [7]), jit_load := fun _ => some modW }

/-- Generic FetchModel request: opcode 2, two payload bytes spelling m1. -/
def mbFetch : Mailbox := ⟨1, 0, 0, 0, 0, 0, [2, 2, 0, 0, 0, 109, 49]⟩

/-- Legacy estimate request with the spec decode example: lengths 3, 5, 4, 0
over the payload bytes of abctabletrue, inputCount 1000. -/
def mbLeg : Mailbox := ⟨1, 1000, 3, 5, 4, 0, strBytes "abctabletrue"⟩

/-- The same legacy request re-issued under the next request sequence. -/
def mbLeg2 : Mailbox := { mbLeg with reqSeq := 2 }

/-- Warm cache holding the histogram module of the mbLeg entity. -/
def cacheW : Cache := [((strBytes "abc", strBytes "table"), modW)]

/-- Generic ExecuteQuery request: opcode 3, empty query text. -/
def mbSql : Mailbox := ⟨1, 0, 0, 0, 0, 0, [3, 0, 0, 0, 0]⟩

/-- A 576 KiB response text, larger than the response region. -/
def bigText : List Byte := List.replicate (576 * 1024) 97

/-- A stored blob one byte too large for the response region. -/
def bigBlob : List Byte := List.replicate (MM_LEN - 67) 1

/-- Environment whose query engine answers the oversized text. -/
def envBig : Env := { envW with exec_sql := fun _ => .ok bigText }

/-- Environment whose model store answers the oversized blob. -/
def envBigModel : Env :=
  { envW with first_json_row := fun _ => some (.pyBytes bigBlob) }

/-! ### Structural trace lemmas -/

theorem histLookup_cases (env : Env) (cache : Cache) (s t : List Byte) :
    (∃ h, cache.lookup (s, t) = some h ∧ histLookup env cache s t = (some h, cache, [])) ∨
    (cache.lookup (s, t) = none ∧ ∃ h, _load_hist_for_table env s t = some h ∧
      histLookup env cache s t = (some h, ((s, t), h) :: cache,
        [write_status 2 (strBytes "loaded histogram " ++ s ++ [46] ++ t)])) ∨
    (cache.lookup (s, t) = none ∧ _load_hist_for_table env s t = none ∧
      histLookup env cache s t = (none, cache, [])) := by
  rcases hc : cache.lookup (s, t) with _ | h
  · rcases hl : _load_hist_for_table env s t with _ | h
    · exact Or.inr (Or.inr ⟨rfl, rfl, by simp [histLookup, hc, hl]⟩)
    · exact Or.inr (Or.inl ⟨rfl, h, rfl, by simp [histLookup, hc, hl]⟩)
  · exact Or.inl ⟨h, rfl, by simp [histLookup, hc]⟩

theorem genericHandler_shape (env : Env) (cache : Cache) (mb : Mailbox) :
    ∃ pre, (genericHandler env cache mb).1 = pre ++ [Event.packU64 8 mb.reqSeq] ∧
      (∀ e ∈ pre, isRespSeqWrite e = false ∧ isOutputCountWrite e = false ∧
        isReadyStatus e = false) ∧
      (∃ n, Event.packU32 64 n ∈ pre) := by
  unfold genericHandler
  by_cases h2 : (genericOpcode mb == 2) = true
  · simp only [h2, if_true]
    by_cases hd : (fetchModelData env (genericBody mb)).isEmpty = true
    · exact ⟨[Event.packU32 64 (fetchModelData env (genericBody mb)).length],
        by simp [hd], by simp [isRespSeqWrite, isOutputCountWrite, isReadyStatus],
        (fetchModelData env (genericBody mb)).length, by simp⟩
    · simp only [Bool.not_eq_true] at hd
      exact ⟨[Event.packU32 64 (fetchModelData env (genericBody mb)).length,
        Event.writeBytes 68 (fetchModelData env (genericBody mb))],
        by simp [hd], by simp [isRespSeqWrite, isOutputCountWrite, isReadyStatus],
        (fetchModelData env (genericBody mb)).length, by simp⟩
  · simp only [h2, if_false, Bool.false_eq_true]
    by_cases h3 : (genericOpcode mb == 3) = true
    · simp only [h3, if_true]
      rcases hsql : env.exec_sql (genericBody mb) with e | txt
      · simp only [hsql]
        by_cases he : (strBytes "sql error: " ++ e).isEmpty = true
        · exact ⟨[write_status 3 (strBytes "sql error: " ++ e),
            Event.packU32 64 (strBytes "sql error: " ++ e).length],
            by simp [he], by simp [isRespSeqWrite, isOutputCountWrite, isReadyStatus, write_status],
            (strBytes "sql error: " ++ e).length, by simp⟩
        · simp only [Bool.not_eq_true] at he
          exact ⟨[write_status 3 (strBytes "sql error: " ++ e),
            Event.packU32 64 (strBytes "sql error: " ++ e).length,
            Event.writeBytes 68 (strBytes "sql error: " ++ e)],
            by simp [he], by simp [isRespSeqWrite, isOutputCountWrite, isReadyStatus, write_status],
            (strBytes "sql error: " ++ e).length, by simp⟩
      · simp only [hsql]
        by_cases ht : txt.isEmpty = true
        · exact ⟨[Event.packU32 64 txt.length], by simp [ht],
            by simp [isRespSeqWrite, isOutputCountWrite, isReadyStatus], txt.length, by simp⟩
        · simp only [Bool.not_eq_true] at ht
          exact ⟨[Event.packU32 64 txt.length, Event.writeBytes 68 txt],
            by simp [ht], by simp [isRespSeqWrite, isOutputCountWrite, isReadyStatus], txt.length, by simp⟩
    · simp only [h3, if_false, Bool.false_eq_true]
      exact ⟨[Event.packU32 64 0], by simp,
        by simp [isRespSeqWrite, isOutputCountWrite, isReadyStatus], 0, by simp⟩

theorem legacyHandler_shape (env : Env) (models : Models) (cache : Cache) (mb : Mailbox) :
    ∃ pre out, (legacyHandler env models cache mb).1 = pre ++ [Event.packU64 8 mb.reqSeq] ∧
      (∀ e ∈ pre, isRespSeqWrite e = false ∧ isGenericLenWrite e = false ∧
        isReadyStatus e = false) ∧
      Event.packF64 40 out ∈ pre := by
  refine ⟨(histLookup env cache (legacyFields mb).1 (legacyFields mb).2.1).2.2 ++
    [Event.packF64 40 (legacyOut env models
      (histLookup env cache (legacyFields mb).1 (legacyFields mb).2.1).1
      (legacyFields mb).1 (legacyFields mb).2.1 (legacyFields mb).2.2.1
      (legacyFields mb).2.2.2 mb.inputCount)],
    legacyOut env models
      (histLookup env cache (legacyFields mb).1 (legacyFields mb).2.1).1
      (legacyFields mb).1 (legacyFields mb).2.1 (legacyFields mb).2.2.1
      (legacyFields mb).2.2.2 mb.inputCount, ?_, ?_, by simp⟩
  · simp [legacyHandler]
  · intro e he
    rcases List.mem_append.1 he with h1 | h2
    · rcases histLookup_cases env cache (legacyFields mb).1 (legacyFields mb).2.1 with
        ⟨h, _, hh⟩ | ⟨_, h, _, hh⟩ | ⟨_, _, hh⟩
      · rw [hh] at h1; simp at h1
      · rw [hh] at h1
        simp only [List.mem_singleton] at h1
        subst h1
        exact ⟨rfl, rfl, rfl⟩
      · rw [hh] at h1; simp at h1
    · simp only [List.mem_singleton] at h2
      subst h2
      exact ⟨rfl, rfl, rfl⟩

theorem processRequest_shape (env : Env) (models : Models) (cache : Cache) (mb : Mailbox) :
    ∃ pre, (processRequest env models cache mb).1 = pre ++ [Event.packU64 8 mb.reqSeq] ∧
      (∀ e ∈ pre, isRespSeqWrite e = false) ∧
      (∃ e ∈ pre, isResponseWrite e = true) := by
  unfold processRequest
  by_cases hg : isGenericMode mb = true
  · simp only [hg, if_true]
    rcases genericHandler_shape env cache mb with ⟨pre, hpre, hno, n, hmem⟩
    exact ⟨pre, hpre, fun x hx => (hno x hx).1, Event.packU32 64 n, hmem, rfl⟩
  · simp only [hg, if_false, Bool.false_eq_true]
    rcases legacyHandler_shape env models cache mb with ⟨pre, out, hpre, hno, hmem⟩
    exact ⟨pre, hpre, fun x hx => (hno x hx).1, Event.packF64 40 out, hmem, rfl⟩

/-! ### Claims -/

/-- C1: in every request processed by the poll loop, of any of the four
kinds, the respSeq write (u64 at offset 8, carrying reqSeq) is the final
write of the pass, so every byte of the response payload is written before
it and no execution updates respSeq before its payload. -/
theorem c1_respSeq_after_payload (env : Env) (models : Models) (cache : Cache) (mb : Mailbox) :
    ∃ pre, (processRequest env models cache mb).1 = pre ++ [Event.packU64 8 mb.reqSeq] ∧
      ∀ e ∈ pre, isRespSeqWrite e = false := by
  rcases processRequest_shape env models cache mb with ⟨pre, h1, h2, _⟩
  exact ⟨pre, h1, h2⟩

/-- A nonempty list has a false isEmpty flag. -/
theorem isEmpty_false_of_ne_nil {α : Type} {l : List α} (h : l ≠ []) : l.isEmpty = false := by
  cases l
  · exact absurd rfl h
  · rfl

/-- The capacity-aware pass agrees with the total-write trace semantics on
every pass whose response writes fit the mapped region: the two semantics
differ only at oversized FetchModel blobs and oversized forwarded-query
responses. -/
theorem checked_agrees_when_fits (env : Env) (models : Models) (cache : Cache) (mb : Mailbox)
    (hfit2 : writeFits 68 (fetchModelData env (genericBody mb)) = true)
    (hfit3 : ∀ txt, env.exec_sql (genericBody mb) = .ok txt → writeFits 68 txt = true)
    (hfit3e : ∀ e, env.exec_sql (genericBody mb) = .error e →
      writeFits 68 (strBytes "sql error: " ++ e) = true) :
    processRequestChecked env models cache mb =
      PassResult.ok (processRequest env models cache mb).1
        (processRequest env models cache mb).2 := by
  unfold processRequestChecked processRequest genericHandlerChecked genericHandler
  by_cases hg : isGenericMode mb = true
  · simp only [hg, if_true]
    by_cases h2 : (genericOpcode mb == 2) = true
    · simp only [h2, if_true]
      by_cases hd : (fetchModelData env (genericBody mb)).isEmpty = true
      · simp [hd]
      · simp only [Bool.not_eq_true] at hd
        simp [hd, hfit2]
    · simp only [h2, Bool.false_eq_true, if_false]
      by_cases h3 : (genericOpcode mb == 3) = true
      · simp only [h3, if_true]
        rcases hsql : env.exec_sql (genericBody mb) with e | txt
        · simp only [hsql]
          have hf := hfit3e e hsql
          by_cases he : (strBytes "sql error: " ++ e).isEmpty = true
          · simp [he]
          · simp only [Bool.not_eq_true] at he
            simp [he, hf]
        · simp only [hsql]
          have hf := hfit3 txt hsql
          by_cases ht : txt.isEmpty = true
          · simp [ht]
          · simp only [Bool.not_eq_true] at ht
            simp [ht, hf]
      · simp only [h3, Bool.false_eq_true, if_false]
  · simp only [hg, Bool.false_eq_true, if_false]

/-- C3 fails on the code: an ExecuteQuery pass whose engine response is
larger than the mapped region packs the length prefix and then raises an
uncaught IndexError at the unguarded slice assignment; the loop terminates
with the request unanswered — no respSeq write and no response payload ever
happen on this path, although the claim and the spec demand that nothing in
PROCESSING terminates the loop. -/
theorem c3_oversized_sql_response_crashes :
    processRequestChecked envBig ⟨none, none, none⟩ [] mbSql =
      PassResult.crash [Event.packU32 64 (576 * 1024)] ∧
    ∀ e ∈ [Event.packU32 64 (576 * 1024)], isRespSeqWrite e = false := by
  constructor
  · have hlen : bigText.length = 576 * 1024 := by
      unfold bigText
      exact List.length_replicate _ _
    have hne : bigText ≠ [] := by
      intro h
      have := congrArg List.length h
      rw [hlen] at this
      simp at this
    have hq : bigText.isEmpty = false := isEmpty_false_of_ne_nil hne
    have hw : writeFits 68 bigText = false := by
      unfold writeFits
      rw [hlen]
      decide
    unfold processRequestChecked genericHandlerChecked
    simp [mbSql, isGenericMode, genericOpcode, genericBody, envBig, envW, hq, hw, hlen]
  · decide

/-- Passthrough of the legacy response value under any of the fallback
conditions: a missing base encoder, a missing output head, a missing
histogram module, or a raising prediction call. -/
theorem legacyOut_fallback (env : Env) (models : Models) (hist : Option ScriptModule)
    (s t f o : List Byte) (ic : Nat)
    (hfall : models.base_encoder = none ∨ models.output_head = none ∨ hist = none ∨
      ∀ be oh h, models.base_encoder = some be → models.output_head = some oh →
        hist = some h →
        _predict_one env be models.ordered_layer oh h s t f o (ic : Rat) = none) :
    legacyOut env models hist s t f o ic = (ic : Rat) := by
  rcases hbe : models.base_encoder with _ | be
  · simp [legacyOut, hbe]
  · rcases hoh : models.output_head with _ | oh
    · simp [legacyOut, hbe, hoh]
    · rcases hh : hist with _ | h
      · simp [legacyOut, hbe, hoh, hh]
      · have hp : _predict_one env be models.ordered_layer oh h s t f o (ic : Rat) = none := by
          rcases hfall with hf | hf | hf | hf
          · rw [hbe] at hf; simp at hf
          · rw [hoh] at hf; simp at hf
          · rw [hh] at hf; simp at hf
          · exact hf be oh h hbe hoh hh
        simp [legacyOut, hbe, hoh, hh, hp]

/-- C2: for a legacy estimate request, when the base encoder, the output
head or the per-entity histogram model is unavailable, or the prediction
pipeline raises, the outputCount written at offset 40 is exactly the
request inputCount. -/
theorem c2_model_unavailable_passthrough (env : Env) (models : Models) (cache : Cache)
    (mb : Mailbox) (hleg : isGenericMode mb = false)
    (hfall : models.base_encoder = none ∨ models.output_head = none ∨
      (histLookup env cache (legacyFields mb).1 (legacyFields mb).2.1).1 = none ∨
      ∀ be oh h, models.base_encoder = some be → models.output_head = some oh →
        (histLookup env cache (legacyFields mb).1 (legacyFields mb).2.1).1 = some h →
        _predict_one env be models.ordered_layer oh h (legacyFields mb).1
          (legacyFields mb).2.1 (legacyFields mb).2.2.1 (legacyFields mb).2.2.2
          (mb.inputCount : Rat) = none) :
    Event.packF64 40 (mb.inputCount : Rat) ∈ (processRequest env models cache mb).1 := by
  have hout := legacyOut_fallback env models
    (histLookup env cache (legacyFields mb).1 (legacyFields mb).2.1).1
    (legacyFields mb).1 (legacyFields mb).2.1 (legacyFields mb).2.2.1
    (legacyFields mb).2.2.2 mb.inputCount hfall
  unfold processRequest
  simp [hleg, legacyHandler, hout]

/-- Witness for C2 with every model missing. -/
theorem c2_witness :
    Event.packF64 40 (mbLeg.inputCount : Rat) ∈
      (processRequest envW ⟨none, none, none⟩ [] mbLeg).1 :=
  c2_model_unavailable_passthrough envW ⟨none, none, none⟩ [] mbLeg (by decide) (Or.inl rfl)

/-- Counterexample to C4 as stated: a FetchModel request whose identifier is
absent from the model store gets a zero-length response, but no status with
code ERROR is emitted on that path (the ERROR branch only guards exceptions
escaping the fetch block, and the row helper swallows its own failures). -/
theorem c4_counterexample :
    (∀ e ∈ (processRequest envW ⟨none, none, none⟩ [] mbFetch).1, isErrorStatus e = false) ∧
    Event.packU32 64 0 ∈ (processRequest envW ⟨none, none, none⟩ [] mbFetch).1 := by
  decide

/-- C4 as amended: a FetchModel request whose identifier is missing from the
store, or whose store lookup or field decoding fails, is answered with a
zero-length response and respSeq alone; no status of any kind is emitted on
these paths. -/
theorem c4_missing_model_zero_length (env : Env) (models : Models) (cache : Cache)
    (mb : Mailbox) (hg : isGenericMode mb = true) (hop : genericOpcode mb = 2)
    (hmiss : fetchModelData env (genericBody mb) = []) :
    (processRequest env models cache mb).1 = [Event.packU32 64 0, Event.packU64 8 mb.reqSeq] := by
  unfold processRequest
  simp [hg, genericHandler, hop, hmiss]

/-- Witness for the amended C4 at a concrete missing id. -/
theorem c4_witness :
    (processRequest envW ⟨none, none, none⟩ [] mbFetch).1 =
      [Event.packU32 64 0, Event.packU64 8 mbFetch.reqSeq] :=
  c4_missing_model_zero_length envW ⟨none, none, none⟩ [] mbFetch (by decide) (by decide) (by decide)

/-- C5: dispatch depends on the four length fields alone; all-zero length
fields produce a generic-mode response (a length prefix at offset 64 and
never a write of the legacy outputCount), any nonzero length field produces
a legacy response (an outputCount write at offset 40 and never a generic
length prefix). -/
theorem c5_mode_by_length_fields (env : Env) (models : Models) (cache : Cache) (mb : Mailbox) :
    (isGenericMode mb = true →
      (∃ n, Event.packU32 64 n ∈ (processRequest env models cache mb).1) ∧
      ∀ v, Event.packF64 40 v ∉ (processRequest env models cache mb).1) ∧
    (isGenericMode mb = false →
      (∃ v, Event.packF64 40 v ∈ (processRequest env models cache mb).1) ∧
      ∀ n, Event.packU32 64 n ∉ (processRequest env models cache mb).1) := by
  constructor
  · intro hg
    unfold processRequest
    rcases genericHandler_shape env cache mb with ⟨pre, hpre, hno, n, hmem⟩
    simp only [hg, if_true]
    constructor
    · exact ⟨n, by rw [hpre]; exact List.mem_append.2 (Or.inl hmem)⟩
    · intro v hv
      rw [hpre] at hv
      rcases List.mem_append.1 hv with hm | hm
      · have := (hno _ hm).2.1
        simp [isOutputCountWrite] at this
      · simp at hm
  · intro hg
    unfold processRequest
    rcases legacyHandler_shape env models cache mb with ⟨pre, out, hpre, hno, hmem⟩
    simp only [hg, Bool.false_eq_true, if_false]
    constructor
    · exact ⟨out, by rw [hpre]; exact List.mem_append.2 (Or.inl hmem)⟩
    · intro n hn
      rw [hpre] at hn
      rcases List.mem_append.1 hn with hm | hm
      · have := (hno _ hm).2.1
        simp [isGenericLenWrite] at this
      · simp at hm

/-- Witness for C5 on one generic and one legacy request. -/
theorem c5_witness :
    (∃ n, Event.packU32 64 n ∈ (processRequest envW ⟨none, none, none⟩ [] mbFetch).1) ∧
    (∃ v, Event.packF64 40 v ∈ (processRequest envW ⟨none, none, none⟩ [] mbLeg).1) :=
  ⟨((c5_mode_by_length_fields envW ⟨none, none, none⟩ [] mbFetch).1 (by decide)).1,
   ((c5_mode_by_length_fields envW ⟨none, none, none⟩ [] mbLeg).2 (by decide)).1⟩

/-- C6: legacy decoding slices the payload region into four consecutive byte
strings using the four length fields in order, and on the concrete example
with lengths 3, 5, 4, 0 over the bytes of abctabletrue it yields the
namespace abc, the entity table, the filter true and the empty order. -/
theorem c6_legacy_decode_slices :
    (∀ (payload : List Byte) (sLen tLen fLen oLen : Nat),
      decodeLegacyFields payload sLen tLen fLen oLen =
        (payload.take sLen, (payload.drop sLen).take tLen,
         (payload.drop (sLen + tLen)).take fLen,
         (payload.drop (sLen + tLen + fLen)).take oLen)) ∧
    decodeLegacyFields (strBytes "abctabletrue") 3 5 4 0 =
      (strBytes "abc", strBytes "table", strBytes "true", []) := by
  constructor
  · intro payload sLen tLen fLen oLen
    simp [decodeLegacyFields]
  · decide

/-- Counterexample to C7 as stated: a model identifier that maps in the
store to bytes larger than the mapped region is not answered with the
roundtrip [len(B)][B]; the oversized write raises inside the guarded
FetchModel block, and the pass answers an ERROR status plus a zero-length
response instead, never writing any response bytes. -/
theorem c7_counterexample :
    processRequestChecked envBigModel ⟨none, none, none⟩ [] mbFetch =
      PassResult.ok [Event.packU32 64 (MM_LEN - 67),
        write_status 3 (strBytes "fetch model error: mmap slice assignment is wrong size"),
        Event.packU32 64 0, Event.packU64 8 mbFetch.reqSeq] [] ∧
    ([Event.packU32 64 (MM_LEN - 67),
      write_status 3 (strBytes "fetch model error: mmap slice assignment is wrong size"),
      Event.packU32 64 0, Event.packU64 8 mbFetch.reqSeq].filter isBytesWrite) = [] := by
  constructor
  · have hlen : bigBlob.length = MM_LEN - 67 := by
      unfold bigBlob
      exact List.length_replicate _ _
    have hne : bigBlob ≠ [] := by
      intro h
      have := congrArg List.length h
      rw [hlen] at this
      simp [MM_LEN] at this
    have hq : bigBlob.isEmpty = false := isEmpty_false_of_ne_nil hne
    have hw : writeFits 68 bigBlob = false := by
      unfold writeFits
      rw [hlen]
      decide
    have hdata : fetchModelData envBigModel (genericBody mbFetch) = bigBlob := by
      unfold fetchModelData envBigModel envW
      simp [_decode_model_field, hq]
    have hg2 : isGenericMode mbFetch = true := by decide
    have hop2 : (genericOpcode mbFetch == 2) = true := by decide
    unfold processRequestChecked genericHandlerChecked
    simp [hg2, hop2, hdata, hq, hw, hlen]
  · decide

/-- C7 as amended: a FetchModel request whose identifier decodes in the
store to nonempty bytes B is answered with [len(B) u32] at offset 64, the
bytes B at offset 68 and then respSeq exactly when the write of B fits the
mapped region; when B is larger, the guarded write raises, and the pass
answers the already-written length prefix, an ERROR status, a zero-length
prefix and respSeq instead. -/
theorem c7_fetch_roundtrip_sized (env : Env) (models : Models) (cache : Cache) (mb : Mailbox)
    (f : PyVal) (B : List Byte)
    (hg : isGenericMode mb = true) (hop : genericOpcode mb = 2)
    (hrow : env.first_json_row (sqlSelectBaseModel (genericBody mb)) = some f)
    (hdec : _decode_model_field f = some B) (hne : B ≠ []) :
    (writeFits 68 B = true →
      processRequestChecked env models cache mb =
        PassResult.ok [Event.packU32 64 B.length, Event.writeBytes 68 B,
          Event.packU64 8 mb.reqSeq] cache) ∧
    (writeFits 68 B = false →
      processRequestChecked env models cache mb =
        PassResult.ok [Event.packU32 64 B.length,
          write_status 3 (strBytes "fetch model error: mmap slice assignment is wrong size"),
          Event.packU32 64 0, Event.packU64 8 mb.reqSeq] cache) := by
  have hBe : B.isEmpty = false := isEmpty_false_of_ne_nil hne
  have hdata : fetchModelData env (genericBody mb) = B := by
    unfold fetchModelData
    rw [hrow]
    simp [hdec, hBe]
  unfold processRequestChecked genericHandlerChecked
  constructor
  · intro hfit
    simp [hg, hop, hdata, hBe, hfit]
  · intro hfit
    simp [hg, hop, hdata, hBe, hfit]

/-- Witness for the amended C7 with the store holding the bytes 1, 2, 3,
which fit the region. -/
theorem c7_witness :
    processRequestChecked envB ⟨none, none, none⟩ [] mbFetch =
      PassResult.ok [Event.packU32 64 3, Event.writeBytes 68 [1, 2, 3],
        Event.packU64 8 mbFetch.reqSeq] [] :=
  (c7_fetch_roundtrip_sized envB ⟨none, none, none⟩ [] mbFetch (.pyBytes [1, 2, 3]) [1, 2, 3]
    (by decide) (by decide) rfl rfl (by decide)).1 (by decide)

/-- C8: two legacy estimate requests with identical namespace, entity,
filter, order and inputCount, processed one after the other against a warm
histogram cache, leave the cache unchanged and write identical outputCount
values (two-run determinism of the estimate against warm caches). -/
theorem c8_estimate_deterministic (env : Env) (models : Models) (cache : Cache)
    (mb mb2 : Mailbox)
    (hleg : isGenericMode mb = false)
    (hlens : mb.schemaLen = mb2.schemaLen ∧ mb.tableLen = mb2.tableLen ∧
      mb.filterLen = mb2.filterLen ∧ mb.orderLen = mb2.orderLen)
    (hpay : mb.payload = mb2.payload) (hin : mb.inputCount = mb2.inputCount)
    (hwarm : (cache.lookup (keyOf mb)).isSome = true) :
    (processRequest env models cache mb).2 = cache ∧
    (processRequest env models cache mb).1.filter isOutputCountWrite =
      (processRequest env models (processRequest env models cache mb).2 mb2).1.filter
        isOutputCountWrite := by
  rcases Option.isSome_iff_exists.1 hwarm with ⟨h, hc⟩
  unfold keyOf at hc
  have hfields : legacyFields mb = legacyFields mb2 := by
    unfold legacyFields
    rw [hlens.1, hlens.2.1, hlens.2.2.1, hlens.2.2.2, hpay]
  have hleg2 : isGenericMode mb2 = false := by
    unfold isGenericMode at hleg ⊢
    rw [← hlens.1, ← hlens.2.1, ← hlens.2.2.1, ← hlens.2.2.2]
    exact hleg
  have hhl : histLookup env cache (legacyFields mb).1 (legacyFields mb).2.1 =
      (some h, cache, []) := by
    simp [histLookup, hc]
  have hc2 : cache.lookup ((legacyFields mb2).1, (legacyFields mb2).2.1) = some h := by
    rw [← hfields]; exact hc
  have hhl2 : histLookup env cache (legacyFields mb2).1 (legacyFields mb2).2.1 =
      (some h, cache, []) := by
    simp [histLookup, hc2]
  have h1 : processRequest env models cache mb =
      ([Event.packF64 40 (legacyOut env models (some h) (legacyFields mb).1
          (legacyFields mb).2.1 (legacyFields mb).2.2.1 (legacyFields mb).2.2.2 mb.inputCount),
        Event.packU64 8 mb.reqSeq], cache) := by
    unfold processRequest
    simp [hleg, legacyHandler, hhl]
  have h2 : processRequest env models cache mb2 =
      ([Event.packF64 40 (legacyOut env models (some h) (legacyFields mb2).1
          (legacyFields mb2).2.1 (legacyFields mb2).2.2.1 (legacyFields mb2).2.2.2 mb2.inputCount),
        Event.packU64 8 mb2.reqSeq], cache) := by
    unfold processRequest
    simp [hleg2, legacyHandler, hhl2]
  constructor
  · rw [h1]
  · rw [h1]
    dsimp only
    rw [h2, ← hfields, ← hin]
    simp [isOutputCountWrite]

/-- Witness for C8: the same legacy request issued twice under consecutive
sequence numbers against a warm cache. -/
theorem c8_witness :
    (processRequest envW ⟨none, none, none⟩ cacheW mbLeg).2 = cacheW ∧
    (processRequest envW ⟨none, none, none⟩ cacheW mbLeg).1.filter isOutputCountWrite =
      (processRequest envW ⟨none, none, none⟩
        (processRequest envW ⟨none, none, none⟩ cacheW mbLeg).2 mbLeg2).1.filter
        isOutputCountWrite :=
  c8_estimate_deterministic envW ⟨none, none, none⟩ cacheW mbLeg mbLeg2 (by decide)
    ⟨rfl, rfl, rfl, rfl⟩ rfl rfl (by rfl)

/-- Additivity of the READY count over concatenated traces. -/
theorem countReady_append (a b : List Event) :
    countReady (a ++ b) = countReady a + countReady b := by
  simp [countReady, List.filter_append]

/-- A non-READY head event does not change the READY count. -/
theorem countReady_cons_not (e : Event) (evs : List Event) (h : isReadyStatus e = false) :
    countReady (e :: evs) = countReady evs := by
  simp [countReady, List.filter_cons, h]

/-- No processing pass ever publishes a READY status: request handling only
emits INFO and ERROR statuses. -/
theorem countReady_processRequest (env : Env) (models : Models) (cache : Cache) (mb : Mailbox) :
    countReady (processRequest env models cache mb).1 = 0 := by
  have hall : ∀ e ∈ (processRequest env models cache mb).1, isReadyStatus e = false := by
    unfold processRequest
    by_cases hg : isGenericMode mb = true
    · simp only [hg, if_true]
      rcases genericHandler_shape env cache mb with ⟨pre, hpre, hno, _, _⟩
      rw [hpre]
      intro e he
      rcases List.mem_append.1 he with hm | hm
      · exact (hno _ hm).2.2
      · simp only [List.mem_singleton] at hm
        subst hm
        rfl
    · simp only [hg, Bool.false_eq_true, if_false]
      rcases legacyHandler_shape env models cache mb with ⟨pre, out, hpre, hno, _⟩
      rw [hpre]
      intro e he
      rcases List.mem_append.1 he with hm | hm
      · exact (hno _ hm).2.2
      · simp only [List.mem_singleton] at hm
        subst hm
        rfl
  unfold countReady
  rw [List.length_eq_zero, List.filter_eq_nil_iff]
  intro e he
  simp [hall e he]

/-- After the READY announcement, an iteration publishes no READY status and
keeps last_seq away from 0. -/
theorem loopIter_no_ready (env : Env) (models : Models) (st : LoopState) (mb : Mailbox)
    (h : st.last_seq ≠ 0) :
    countReady (loopIter env models st mb).2 = 0 ∧ (loopIter env models st mb).1.last_seq ≠ 0 := by
  have hr : readyStep models st = (st, []) := by
    unfold readyStep
    rw [if_neg h]
  unfold loopIter
  rw [hr]
  dsimp only
  by_cases hp : mb.reqSeq ≠ 0 ∧ (mb.reqSeq : Int) ≠ st.last_seq
  · rw [if_pos hp]
    constructor
    · dsimp only
      rw [List.nil_append]
      exact countReady_processRequest env models st.hist_cache mb
    · dsimp only
      exact fun hc => hp.1 (by exact_mod_cast hc)
  · rw [if_neg hp]
    exact ⟨rfl, h⟩

/-- The very first iteration publishes READY exactly once and moves last_seq
away from 0 forever. -/
theorem loopIter_first (env : Env) (models : Models) (st : LoopState) (mb : Mailbox)
    (h : st.last_seq = 0) :
    countReady (loopIter env models st mb).2 = 1 ∧ (loopIter env models st mb).1.last_seq ≠ 0 := by
  have hr : readyStep models st = ({ st with last_seq := -1 }, readyEvents models) := by
    unfold readyStep
    rw [if_pos h]
  have hre : countReady (readyEvents models) = 1 := by
    unfold readyEvents
    by_cases hb : (models.base_encoder.isSome && models.output_head.isSome) = true
    · rw [if_pos hb]; decide
    · rw [if_neg hb]; decide
  unfold loopIter
  rw [hr]
  dsimp only
  by_cases hp : mb.reqSeq ≠ 0 ∧ (mb.reqSeq : Int) ≠ (-1 : Int)
  · rw [if_pos hp]
    constructor
    · dsimp only
      rw [countReady_append, hre, countReady_processRequest]
    · dsimp only
      exact fun hc => hp.1 (by exact_mod_cast hc)
  · rw [if_neg hp]
    refine ⟨hre, ?_⟩
    dsimp only
    decide

/-- Once last_seq left 0, no further iteration of the run publishes READY. -/
theorem runFrom_no_ready (env : Env) (models : Models) :
    ∀ (mbs : List Mailbox) (st : LoopState), st.last_seq ≠ 0 →
      countReady (runFrom env models st mbs).2 = 0
  | [], _, _ => by simp [runFrom, countReady]
  | mb :: mbs, st, h => by
    have h1 := loopIter_no_ready env models st mb h
    have h2 := runFrom_no_ready env models mbs (loopIter env models st mb).1 h1.2
    simp [runFrom, countReady_append, h1.1, h2]

/-- C9: over any nonempty run of the poll loop, whatever the startup load
outcome and the request traffic, exactly one READY status is published. -/
theorem c9_ready_exactly_once (env : Env) (mbs : List Mailbox) (h : mbs ≠ []) :
    countReady (run_ipc_loop env mbs).2 = 1 := by
  rcases mbs with _ | ⟨mb, rest⟩
  · exact absurd rfl h
  · have h1 := loopIter_first env (startupModels env) initState mb rfl
    have h2 := runFrom_no_ready env (startupModels env) rest
      (loopIter env (startupModels env) initState mb).1 h1.2
    have hrun : (run_ipc_loop env (mb :: rest)).2 =
        write_status 2 (strBytes "python: up and listening") ::
          ((loopIter env (startupModels env) initState mb).2 ++
           (runFrom env (startupModels env)
             (loopIter env (startupModels env) initState mb).1 rest).2) := by
      simp [run_ipc_loop, runFrom]
    rw [hrun, countReady_cons_not (write_status 2 (strBytes "python: up and listening")) _
      (by decide), countReady_append, h1.1, h2]

/-- Witness for C9 on a one-iteration run. -/
theorem c9_witness : countReady (run_ipc_loop envW [mbLeg]).2 = 1 :=
  c9_ready_exactly_once envW [mbLeg] (by simp)

/-- C10: the histogram cache admits a key only on a successful load: a miss
with a failing load leaves the cache unchanged (so the next request for the
entity attempts the load again), a miss with a successful load stores the
module under its key where later lookups find it, and a warm hit leaves the
cache unchanged. -/
theorem c10_hist_cache_only_on_success (env : Env) (models : Models) (cache : Cache)
    (mb : Mailbox) (hleg : isGenericMode mb = false) :
    (cache.lookup (keyOf mb) = none →
      _load_hist_for_table env (keyOf mb).1 (keyOf mb).2 = none →
      (processRequest env models cache mb).2 = cache) ∧
    (∀ h, cache.lookup (keyOf mb) = none →
      _load_hist_for_table env (keyOf mb).1 (keyOf mb).2 = some h →
      (processRequest env models cache mb).2 = (keyOf mb, h) :: cache ∧
      ((keyOf mb, h) :: cache).lookup (keyOf mb) = some h) ∧
    (∀ h, cache.lookup (keyOf mb) = some h →
      (processRequest env models cache mb).2 = cache) := by
  have hproc : (processRequest env models cache mb).2 =
      (histLookup env cache (legacyFields mb).1 (legacyFields mb).2.1).2.1 := by
    unfold processRequest
    simp [hleg, legacyHandler]
  refine ⟨fun hc hl => ?_, fun h hc hl => ⟨?_, ?_⟩, fun h hc => ?_⟩
  · rw [hproc]
    unfold keyOf at hc hl
    simp [histLookup, hc, hl]
  · rw [hproc]
    unfold keyOf at hc hl ⊢
    simp [histLookup, hc, hl]
  · unfold keyOf
    simp [List.lookup]
  · rw [hproc]
    unfold keyOf at hc
    simp [histLookup, hc]

/-- Witness for C10: a successful load populates the empty cache and the
stored module is found under its key. -/
theorem c10_witness :
    (processRequest envLoad ⟨none, none, none⟩ [] mbLeg).2 = [(keyOf mbLeg, modW)] ∧
    ([(keyOf mbLeg, modW)] : Cache).lookup (keyOf mbLeg) = some modW :=
  (c10_hist_cache_only_on_success envLoad ⟨none, none, none⟩ [] mbLeg (by decide)).2.1
    modW rfl rfl

end AIOptimizer
